import Mathlib

/-!
Verification of the DBF/SX-cipher core of this repository.

The TypeScript sources are embedded shallowly:
* byte buffers (`ArrayBuffer`, `Uint8Array`, Node `Buffer`) become `List Nat`
  whose elements are below 256 wherever the typed array guarantees it;
* JavaScript unsigned 32-bit arithmetic (`>>> 0`) becomes `% U32`;
* JavaScript strings coming from byte data are kept as lists of char codes;
* fallible operations (`DataView` reads that can throw a `RangeError`,
  use of an `undefined` module variable) return `Except JsError`.
-/

/-- The kinds of JavaScript exceptions the embedded code can raise. -/
inductive JsError where
  | rangeError : JsError
  | typeError : JsError
deriving DecidableEq, Repr

/-- 2^32, the modulus of JavaScript unsigned 32-bit arithmetic (`x >>> 0`). -/
def U32 : Nat := 4294967296

/-! ## sxcrypt.ts (src/unnamed/part_000, second section) -/

/-- Constant `RND_MUL1 = 0x0de6d` from sxcrypt.ts. -/
def RND_MUL1 : Nat := 0x0de6d

/-- Constant `RND_MUL2 = 0x0278d` from sxcrypt.ts. -/
def RND_MUL2 : Nat := 0x0278d

/-- Model of `getUint16LE(buffer, offset)`: little-endian 16-bit read.  The `DataView`
construction throws when fewer than two bytes remain; every use below is
guarded by an 8-byte-key hypothesis, so the total `getD` model coincides. -/
def getUint16LE (buffer : List Nat) (offset : Nat) : Nat :=
  buffer.getD offset 0 + 256 * buffer.getD (offset + 1) 0

/-- Model of `hb_sxInitSeed(keyVal)` from sxcrypt.ts, transcribed exactly.

Two JavaScript-level slips of the source are preserved:
* line `ulSeed = ((part1 | part2) >>> 0 * 17) >>> 0` parses as
  `(part1 | part2) >>> (0 * 17)` (multiplication binds tighter than `>>>`),
  so the `* 17` of the comment above that line never happens;
* the next line uses bitwise `|` with the key window where the comment's
  formula uses `+`. -/
def hb_sxInitSeed (keyVal : List Nat) : Nat × Nat :=
  let ulSeed := (List.range 7).foldl
    (fun ulSeed i =>
      let part1 := ulSeed >>> 16
      let part2 := (ulSeed <<< 16) % U32
      let ulSeed := ((part1 ||| part2) >>> (0 * 17)) % U32
      (ulSeed ||| getUint16LE keyVal i) % U32)
    0
  let ulSeed := ulSeed ||| 1
  let uiKey := ulSeed &&& 0xFFFF
  let finalSeed := ((ulSeed <<< 16) % U32) ||| (ulSeed >>> 16)
  (finalSeed % U32, uiKey)

/-- Model of `hb_sxNextSeed(ulSeed, keyVal, keyIdx, uiKeyRef)` from sxcrypt.ts.  The
source updates `uiKeyRef.value` and returns the new seed; here both are
returned as a pair `(newSeed, newUiKey)`.  The source combines `ulTemp2`,
`uiSeedHi` and the key window with bitwise `|`. -/
def hb_sxNextSeed (ulSeed : Nat) (keyVal : List Nat) (keyIdx : Nat) : Nat × Nat :=
  let uiSeedLo := ulSeed &&& 0xFFFF
  let ulTemp1 := (RND_MUL1 * uiSeedLo) % U32
  let ulTemp2 := ((RND_MUL2 * uiSeedLo) % U32) ||| (ulTemp1 >>> 16)
  let uiSeedLo2 := ulTemp1 &&& 0xFFFF
  let ulTemp1b := (RND_MUL1 * (ulSeed >>> 16)) % U32
  let uiSeedHi := (ulTemp1b ||| ulTemp2) &&& 0xFFFF
  let ulSeedNew := ((uiSeedHi <<< 16) % U32) ||| uiSeedLo2
  let uiSeedHi2 := uiSeedHi ||| 1
  let uiKeyNew := (uiSeedHi2 ||| getUint16LE keyVal keyIdx) &&& 0xFFFF
  (ulSeedNew % U32, uiKeyNew)

/-- The per-byte transform of the `hb_sxEnCrypt` loop body:
`dstBytes[nPos] = (((ucChar >>> ucShft) | (ucChar << (8 - ucShft))) & 0xFF)
 + (uiKeyRef.value & 0xFF)` followed by the `Uint8Array` store and the
`&= 0xFF`, together truncation modulo 256. -/
def encByte (uiKey ucChar : Nat) : Nat :=
  let ucShft := uiKey &&& 0x07
  ((((ucChar >>> ucShft) ||| (ucChar <<< (8 - ucShft))) &&& 0xFF) + (uiKey &&& 0xFF)) % 256

/-- The per-byte transform of the `hb_sxDeCrypt` loop body:
`ucChar = (srcByte - (uiKey & 0xFF)) & 0xFF` (JavaScript `&` on a possibly
negative number is two's-complement, i.e. the Euclidean remainder mod 256),
then `((ucChar << ucShft) | (ucChar >>> (8 - ucShft))) & 0xFF`. -/
def decByte (uiKey srcByte : Nat) : Nat :=
  let ucChar := (((srcByte : Int) - ((uiKey &&& 0xFF : Nat) : Int)) % 256).toNat
  let ucShft := uiKey &&& 0x07
  ((ucChar <<< ucShft) ||| (ucChar >>> (8 - ucShft))) &&& 0xFF

/-- The `for` loop of `hb_sxEnCrypt`, with the cipher state
`(ulSeed, uiKey, keyIdx)` passed explicitly. -/
def encLoop (keyBytes : List Nat) : List Nat → Nat → Nat → Nat → List Nat
  | [], _, _, _ => []
  | c :: rest, ulSeed, uiKey, keyIdx =>
    encByte uiKey c ::
      encLoop keyBytes rest (hb_sxNextSeed ulSeed keyBytes keyIdx).1
        (hb_sxNextSeed ulSeed keyBytes keyIdx).2 ((keyIdx + 1) % 7)

/-- The `for` loop of `hb_sxDeCrypt`. -/
def decLoop (keyBytes : List Nat) : List Nat → Nat → Nat → Nat → List Nat
  | [], _, _, _ => []
  | c :: rest, ulSeed, uiKey, keyIdx =>
    decByte uiKey c ::
      decLoop keyBytes rest (hb_sxNextSeed ulSeed keyBytes keyIdx).1
        (hb_sxNextSeed ulSeed keyBytes keyIdx).2 ((keyIdx + 1) % 7)

/-- Model of `hb_sxEnCrypt(srcBytes, keyBytes)` from sxcrypt.ts.  The source calls
`hb_sxInitSeed` once for the seed and once for the initial `uiKey`; the
function is pure so both calls agree. -/
def hb_sxEnCrypt (srcBytes keyBytes : List Nat) : List Nat :=
  encLoop keyBytes srcBytes (hb_sxInitSeed keyBytes).1 (hb_sxInitSeed keyBytes).2 0

/-- Model of `hb_sxDeCrypt(srcBytes, keyBytes)` from sxcrypt.ts. -/
def hb_sxDeCrypt (srcBytes keyBytes : List Nat) : List Nat :=
  decLoop keyBytes srcBytes (hb_sxInitSeed keyBytes).1 (hb_sxInitSeed keyBytes).2 0

/-- Model of `createKeyBytes(keyInput)` from sxcrypt.ts, numeric-array branch: the
first 8 entries are masked to bytes, missing entries stay `0`. -/
def createKeyBytes (keyInput : List Nat) : List Nat :=
  (List.range 8).map (fun i =>
    match keyInput.get? i with
    | some v => v &&& 0xFF
    | none => 0)

/-! ### Seed initialization and keystream step as the spec words them
(for comparison with the transcriptions above). -/

/-- Seed initialization following the specification text (section 4.2):
`rot := swap halves`, `seed := (rot * 17) wrapping-u32`,
`seed := (seed + k16) wrapping-u32`, then set the low bit, take the round
key, and swap halves once more.  This definition follows the spec's words,
not the source, and exists only to be compared with `hb_sxInitSeed`. -/
def hb_sxInitSeedSpec (keyVal : List Nat) : Nat × Nat :=
  let seed := (List.range 7).foldl
    (fun seed i =>
      let rot := (seed >>> 16) ||| ((seed <<< 16) % U32)
      let seed := (rot * 17) % U32
      (seed + getUint16LE keyVal i) % U32)
    0
  let seed := seed ||| 1
  let roundKey := seed &&& 0xFFFF
  let returnSeed := ((seed <<< 16) % U32) ||| (seed >>> 16)
  (returnSeed % U32, roundKey)

/-- Keystream step following the specification text (section 4.2, steps 1-9):
`t2 := ((RND_MUL2 * seedLo) + (t1 >> 16)) wrapping-u32` and
`newHi := (t1 + t2) & 0xFFFF` use addition; the round-key update keeps the
OR form the spec prescribes in step 9.  This definition follows the spec's
words, not the source, and exists only to be compared with
`hb_sxNextSeed`. -/
def hb_sxNextSeedSpec (ulSeed : Nat) (keyVal : List Nat) (keyIdx : Nat) : Nat × Nat :=
  let seedLo := ulSeed &&& 0xFFFF
  let t1 := (RND_MUL1 * seedLo) % U32
  let t2 := ((RND_MUL2 * seedLo) + (t1 >>> 16)) % U32
  let newLo := t1 &&& 0xFFFF
  let t1b := (RND_MUL1 * (ulSeed >>> 16)) % U32
  let newHi := (t1b + t2) &&& 0xFFFF
  let newSeed := ((newHi <<< 16) % U32) ||| newLo
  let newHi2 := newHi ||| 1
  let newRoundKey := (newHi2 ||| getUint16LE keyVal keyIdx) &&& 0xFFFF
  (newSeed % U32, newRoundKey)

/-! ### Cipher round-trip -/

set_option maxRecDepth 20000 in
/-- Rotating a byte left undoes rotating it right, for every shift the
cipher can produce (`uiKey &&& 0x07 < 8`) and every byte. -/
theorem rot_left_rot_right (s : Nat) (hs : s < 8) (c : Nat) (hc : c < 256) :
    ((((c >>> s) ||| (c <<< (8 - s))) &&& 0xFF) <<< s |||
      (((c >>> s) ||| (c <<< (8 - s))) &&& 0xFF) >>> (8 - s)) &&& 0xFF = c := by
  revert c
  revert s
  decide

/-- Subtracting the key byte modulo 256 undoes adding it. -/
theorem sub_key_add_key (r kb : Nat) (hr : r < 256) :
    ((((r + kb) % 256 : Nat) : Int) - (kb : Int)) % 256 = (r : Int) := by
  have h := Nat.mod_lt (r + kb) (show 0 < 256 by norm_num)
  push_cast
  omega

/-- One decryption step undoes one encryption step, for any round key. -/
theorem decByte_encByte (uiKey c : Nat) (hc : c < 256) :
    decByte uiKey (encByte uiKey c) = c := by
  have hs : uiKey &&& 0x07 < 8 :=
    lt_of_le_of_lt Nat.and_le_right (by norm_num)
  have hr : ((c >>> (uiKey &&& 0x07)) ||| (c <<< (8 - (uiKey &&& 0x07)))) &&& 0xFF < 256 :=
    lt_of_le_of_lt Nat.and_le_right (by norm_num)
  unfold decByte encByte
  rw [sub_key_add_key _ _ hr]
  rw [Int.toNat_ofNat]
  exact rot_left_rot_right _ hs c hc

/-- The decryption loop undoes the encryption loop from any cipher state:
the keystream depends only on the key, never on the data bytes. -/
theorem decLoop_encLoop (keyBytes : List Nat) (src : List Nat) :
    ∀ ulSeed uiKey keyIdx, (∀ b ∈ src, b < 256) →
      decLoop keyBytes (encLoop keyBytes src ulSeed uiKey keyIdx) ulSeed uiKey keyIdx = src := by
  induction src with
  | nil => intro _ _ _ _; rfl
  | cons c rest ih =>
    intro ulSeed uiKey keyIdx hsrc
    have hc : c < 256 := hsrc c (List.mem_cons_self c rest)
    have hrest : ∀ b ∈ rest, b < 256 := fun b hb => hsrc b (List.mem_cons_of_mem c hb)
    simp only [encLoop, decLoop]
    rw [decByte_encByte uiKey c hc, ih _ _ _ hrest]

/-- C1: decrypting the encryption of any byte sequence with the same 8-byte
key returns the sequence exactly, byte for byte, for all lengths including
the empty sequence. -/
theorem claim_C1_roundtrip (srcBytes keyBytes : List Nat)
    (hsrc : ∀ b ∈ srcBytes, b < 256) (hkeyLen : keyBytes.length = 8)
    (hkey : ∀ b ∈ keyBytes, b < 256) :
    hb_sxDeCrypt (hb_sxEnCrypt srcBytes keyBytes) keyBytes = srcBytes := by
  unfold hb_sxEnCrypt hb_sxDeCrypt
  exact decLoop_encLoop keyBytes srcBytes _ _ _ hsrc

theorem claim_C1_roundtrip_witness :
    (∀ b ∈ ([0, 1, 127, 255] : List Nat), b < 256) ∧
      ([5, 6, 5, 6, 5, 6, 5, 6] : List Nat).length = 8 ∧
      hb_sxDeCrypt (hb_sxEnCrypt [0, 1, 127, 255] [5, 6, 5, 6, 5, 6, 5, 6])
        [5, 6, 5, 6, 5, 6, 5, 6] = [0, 1, 127, 255] :=
  ⟨by decide, by decide,
    claim_C1_roundtrip [0, 1, 127, 255] [5, 6, 5, 6, 5, 6, 5, 6]
      (by decide) (by decide) (by decide)⟩

/-- C2: the source's seed initialization does not follow the spec's
algorithm.  On the key `01 00 00 00 00 00 00 00` the transcribed source
(`hb_sxInitSeed`: no `* 17` because of the `>>> 0 * 17` precedence slip,
bitwise OR with the key window) and the spec's algorithm
(`hb_sxInitSeedSpec`: wrapping `* 17` and wrapping `+`) disagree. -/
theorem claim_C2_initSeed_deviates :
    hb_sxInitSeed [1, 0, 0, 0, 0, 0, 0, 0] ≠ hb_sxInitSeedSpec [1, 0, 0, 0, 0, 0, 0, 0] := by
  decide

/-- C3: the source's keystream step does not compute `t2` and the new high
half with wrapping addition.  At seed `0x10001` (any key, key index 0) the
transcribed source (`hb_sxNextSeed`, bitwise OR) and the spec's steps
(`hb_sxNextSeedSpec`, addition) disagree. -/
theorem claim_C3_nextSeed_deviates :
    hb_sxNextSeed 0x10001 [0, 0, 0, 0, 0, 0, 0, 0] 0 ≠
      hb_sxNextSeedSpec 0x10001 [0, 0, 0, 0, 0, 0, 0, 0] 0 := by
  decide

/-! ## dbfHandler.ts (src/unnamed/part_000, first section) -/

/-- The `DbfHeader` interface of dbfHandler.ts. -/
structure DbfHeader where
  firstByte : Nat
  numRecords : Nat
  headerLength : Nat
  recordLength : Nat
deriving DecidableEq, Repr

/-- The `DbfField` interface of dbfHandler.ts.  The `name` is the ASCII
decoding of the 11 name bytes with NULs removed and surrounding whitespace
trimmed; it is kept as the list of char codes. -/
structure DbfField where
  name : List Nat
  type : Nat
  length : Nat
  decimalPlaces : Nat
  offset : Nat
deriving DecidableEq, Repr

/-- The whitespace char codes JavaScript `trim` removes, restricted to the
code points a single byte can decode to. -/
def jsWhitespace (c : Nat) : Bool :=
  c = 0x20 || c = 0x09 || c = 0x0A || c = 0x0B || c = 0x0C || c = 0x0D || c = 0xA0

/-- JavaScript `String.prototype.trim` over char codes. -/
def jsTrim (s : List Nat) : List Nat :=
  ((s.dropWhile jsWhitespace).reverse.dropWhile jsWhitespace).reverse

/-- Model of `DataView.getUint8`: throws a `RangeError` out of bounds. -/
def viewGetUint8 (buffer : List Nat) (offset : Nat) : Except JsError Nat :=
  if offset + 1 ≤ buffer.length then .ok (buffer.getD offset 0) else .error .rangeError

/-- Model of `DataView.getUint16(offset, true)`: little-endian, throws out of bounds. -/
def viewGetUint16LE (buffer : List Nat) (offset : Nat) : Except JsError Nat :=
  if offset + 2 ≤ buffer.length then
    .ok (buffer.getD offset 0 + 256 * buffer.getD (offset + 1) 0)
  else .error .rangeError

/-- Model of `DataView.getUint32(offset, true)`: little-endian, throws out of bounds. -/
def viewGetUint32LE (buffer : List Nat) (offset : Nat) : Except JsError Nat :=
  if offset + 4 ≤ buffer.length then
    .ok (buffer.getD offset 0 + 256 * buffer.getD (offset + 1) 0 +
      65536 * buffer.getD (offset + 2) 0 + 16777216 * buffer.getD (offset + 3) 0)
  else .error .rangeError

/-- The field name of one descriptor in `readDbfMetadata`:
`new TextDecoder('ascii').decode(nameBytes).replace(/\0/g, '').trim()`
over the 11 bytes at `offset` (the `Uint8Array` construction is guarded by
the caller).  Multi-byte decoder quirks are not distinguished: the decode
is modelled as the identity on byte values. -/
def readFieldName (buffer : List Nat) (offset : Nat) : List Nat :=
  jsTrim (((List.range 11).map (fun i => buffer.getD (offset + i) 0)).filter (fun c => c ≠ 0))

/-- The `while` loop of `readDbfMetadata`: walk 32-byte field descriptors
from offset 32 until `0x0D` or `headerLength - 1`.  `fuel` only bounds the
recursion; `headerLength + 1` always suffices since the offset grows by 32
each step. -/
def readFieldsLoop (buffer : List Nat) (headerLength : Nat) :
    Nat → Nat → Nat → Except JsError (List DbfField)
  | _, _, 0 => .ok []
  | offset, currentFieldOffset, fuel + 1 =>
    if offset < headerLength - 1 then
      match viewGetUint8 buffer offset with
      | .error e => .error e
      | .ok b =>
        if b = 0x0D then .ok []
        else
          -- `new Uint8Array(buffer, offset, 11)` throws when 11 bytes do not fit
          if buffer.length < offset + 11 then .error .rangeError
          else
            match viewGetUint8 buffer (offset + 11) with
            | .error e => .error e
            | .ok ty =>
              match viewGetUint8 buffer (offset + 16) with
              | .error e => .error e
              | .ok len =>
                match viewGetUint8 buffer (offset + 17) with
                | .error e => .error e
                | .ok dec =>
                  match readFieldsLoop buffer headerLength (offset + 32)
                      (currentFieldOffset + len) fuel with
                  | .error e => .error e
                  | .ok rest =>
                    .ok ({ name := readFieldName buffer offset, type := ty,
                           length := len, decimalPlaces := dec,
                           offset := currentFieldOffset } :: rest)
    else .ok []

/-- Model of `readDbfMetadata(buffer)` from dbfHandler.ts: header scalars at offsets
0, 4, 8, 10, then the field-descriptor walk.  No validity checks are
performed; only an out-of-range `DataView` read can fail. -/
def readDbfMetadata (buffer : List Nat) : Except JsError (DbfHeader × List DbfField) :=
  match viewGetUint8 buffer 0 with
  | .error e => .error e
  | .ok firstByte =>
    match viewGetUint32LE buffer 4 with
    | .error e => .error e
    | .ok numRecords =>
      match viewGetUint16LE buffer 8 with
      | .error e => .error e
      | .ok headerLength =>
        match viewGetUint16LE buffer 10 with
        | .error e => .error e
        | .ok recordLength =>
          match readFieldsLoop buffer headerLength 32 1 (headerLength + 1) with
          | .error e => .error e
          | .ok fields =>
            .ok ({ firstByte := firstByte, numRecords := numRecords,
                   headerLength := headerLength, recordLength := recordLength }, fields)

/-- Model of `setDbfFirstByte(buffer, value)`: writes `value` at position 0 and
returns the buffer.  (`DataView.setUint8` would throw on an empty buffer;
both call sites have already read byte 0, so the total model coincides.) -/
def setDbfFirstByte (buffer : List Nat) (value : Nat) : List Nat :=
  buffer.set 0 value

/-- Model of `getDbfDataSection(buffer, headerLength, numRecords, recordLength)`:
`buffer.slice(dataStart, dataStart + numRecords * recordLength)`, a copy of
the payload range, clamped to the buffer like `ArrayBuffer.slice`. -/
def getDbfDataSection (buffer : List Nat) (headerLength numRecords recordLength : Nat) :
    List Nat :=
  ((buffer.drop headerLength).take (numRecords * recordLength))

/-- The write loop of `setDbfDataSection`: `fullBuffer[dataStart + i] =
newDataBytes[i]` for each `i`.  A `Uint8Array` store outside the buffer is
silently dropped (as `List.set` is), and the stored value is truncated to
8 bits by the typed array. -/
def writeBytes (buffer : List Nat) : List Nat → Nat → List Nat
  | [], _ => buffer
  | b :: rest, pos => writeBytes (buffer.set pos (b % 256)) rest (pos + 1)

/-- Model of `setDbfDataSection(originalBuffer, newDataBytes, headerLength)` from
dbfHandler.ts. -/
def setDbfDataSection (originalBuffer : List Nat) (newDataBytes : List Nat)
    (headerLength : Nat) : List Nat :=
  writeBytes originalBuffer newDataBytes headerLength

/-- Writing a byte a list already holds at that position leaves the list
unchanged. -/
theorem set_getD_self (l : List Nat) (i : Nat) (hi : i < l.length) :
    l.set i (l.getD i 0) = l := by
  induction l generalizing i with
  | nil => rfl
  | cons a rest ih =>
    cases i with
    | zero => rfl
    | succ n =>
      simp only [List.set, List.getD, List.get?]
      have hn : n < rest.length := Nat.lt_of_succ_lt_succ hi
      have := ih n hn
      simp only [List.getD] at this
      rw [this]

/-- Writing back bytes that already sit at the target positions reproduces
the buffer. -/
theorem writeBytes_of_agree (data : List Nat) :
    ∀ (buffer : List Nat) (pos : Nat),
      (∀ i, i < data.length → data.getD i 0 = buffer.getD (pos + i) 0) →
      (∀ i, i < data.length → pos + i < buffer.length) →
      (∀ b ∈ buffer, b < 256) →
      writeBytes buffer data pos = buffer := by
  induction data with
  | nil => intro buffer pos _ _ _; rfl
  | cons b rest ih =>
    intro buffer pos hagree hbound hbyte
    have h0 : b = buffer.getD pos 0 := by
      have := hagree 0 (Nat.succ_pos _)
      simpa using this
    have hpos : pos < buffer.length := by
      have := hbound 0 (Nat.succ_pos _)
      simpa using this
    have hb256 : b < 256 := by
      rw [h0]
      have hmem : buffer.getD pos 0 ∈ buffer := by
        have hg : buffer.getD pos 0 = buffer.get ⟨pos, hpos⟩ := List.getD_eq_get buffer 0 hpos
        rw [hg]
        exact buffer.get_mem _ _
      exact hbyte _ hmem
    have hset : buffer.set pos (b % 256) = buffer := by
      rw [Nat.mod_eq_of_lt hb256, h0, set_getD_self buffer pos hpos]
    simp only [writeBytes, hset]
    refine ih buffer (pos + 1) ?_ ?_ hbyte
    · intro i hi
      have := hagree (i + 1) (Nat.succ_lt_succ hi)
      simpa [Nat.add_assoc, Nat.add_comm 1 i] using this
    · intro i hi
      have := hbound (i + 1) (Nat.succ_lt_succ hi)
      simpa [Nat.add_assoc, Nat.add_comm 1 i] using this

/-- C8: writing the extracted payload back into place reproduces the buffer
exactly, for every buffer whose declared payload range fits inside it. -/
theorem claim_C8_payload_slicing (buf : List Nat) (h : DbfHeader)
    (hfit : h.headerLength + h.numRecords * h.recordLength ≤ buf.length)
    (hbyte : ∀ b ∈ buf, b < 256) :
    setDbfDataSection buf
      (getDbfDataSection buf h.headerLength h.numRecords h.recordLength)
      h.headerLength = buf := by
  unfold setDbfDataSection getDbfDataSection
  set data := (buf.drop h.headerLength).take (h.numRecords * h.recordLength) with hdata
  have hdlen : data.length = h.numRecords * h.recordLength := by
    rw [hdata, List.length_take, List.length_drop]
    omega
  refine writeBytes_of_agree data buf h.headerLength ?_ ?_ hbyte
  · intro i hi
    rw [hdata]
    have hidx : i < h.numRecords * h.recordLength := by omega
    have h1 : ((buf.drop h.headerLength).take (h.numRecords * h.recordLength)).getD i 0 =
        (buf.drop h.headerLength).getD i 0 := by
      unfold List.getD
      rw [List.get?_take hidx]
    rw [h1]
    unfold List.getD
    rw [List.get?_drop]
  · intro i hi
    rw [hdlen] at hi
    omega

theorem claim_C8_payload_slicing_witness :
    (({ firstByte := 3, numRecords := 2, headerLength := 32, recordLength := 2 } :
        DbfHeader).headerLength + 2 * 2 ≤ 36) ∧
      setDbfDataSection
        [3, 1, 1, 1, 2, 0, 0, 0, 32, 0, 2, 0, 0, 0, 0, 0, 0, 0, 0, 0, 0, 0, 0, 0,
         0, 0, 0, 0, 0, 0, 0, 0, 32, 65, 42, 66]
        (getDbfDataSection
          [3, 1, 1, 1, 2, 0, 0, 0, 32, 0, 2, 0, 0, 0, 0, 0, 0, 0, 0, 0, 0, 0, 0, 0,
           0, 0, 0, 0, 0, 0, 0, 0, 32, 65, 42, 66] 32 2 2) 32 =
        [3, 1, 1, 1, 2, 0, 0, 0, 32, 0, 2, 0, 0, 0, 0, 0, 0, 0, 0, 0, 0, 0, 0, 0,
         0, 0, 0, 0, 0, 0, 0, 0, 32, 65, 42, 66] :=
  ⟨by decide,
    claim_C8_payload_slicing
      [3, 1, 1, 1, 2, 0, 0, 0, 32, 0, 2, 0, 0, 0, 0, 0, 0, 0, 0, 0, 0, 0, 0, 0,
       0, 0, 0, 0, 0, 0, 0, 0, 32, 65, 42, 66]
      { firstByte := 3, numRecords := 2, headerLength := 32, recordLength := 2 }
      (by decide) (by decide)⟩

/-! ## dbfProcess.ts -/

/-- The module-level mutable variables of dbfProcess.ts:
`let processedDataBytes: Uint8Array` and `let statusMessage: string`.
Both start out `undefined` (`none`). -/
structure PipelineState where
  processedDataBytes : Option (List Nat)
  statusMessage : Option String
deriving DecidableEq, Repr

/-- The result bundle `ProcessedDbfResult` of `processDbfFile`, without the
`records` component: the records come from the third-party `dbf.parse`
library, which the specification places out of scope, and no claim
concerns them. -/
structure ProcessedDbfResult where
  fields : List DbfField
  fileBuffer : List Nat
  status : Option String
deriving DecidableEq, Repr

/-- Model of `processDbfFile(fileBuffer, keyData, isDecrypt)` from dbfProcess.ts,
with the module state passed and returned explicitly.

Transcription notes:
* `fileBuffer.slice(0)` clones the caller's buffer, so the caller's bytes
  are never mutated; in this pure model the clone is the value itself;
* the cipher runs only inside `if (firstByte === 0x06)`; otherwise the
  module-level `processedDataBytes` keeps whatever an earlier call left;
* `setDbfDataSection(currentFileBuffer, processedDataBytes, ...)` throws a
  `TypeError` when `processedDataBytes` is still `undefined`
  (`undefined.byteLength`);
* the `dbf.parse` display step only touches a fresh clone and the external
  library's records, so it is not modelled (it can append to the status
  message on a parse error, which is why claims below do not pin the
  status of decrypt-mode calls). -/
def processDbfFile (st : PipelineState) (fileBuffer : List Nat) (keyData : List Nat)
    (isDecrypt : Bool) : Except JsError (ProcessedDbfResult × PipelineState) :=
  let keyBytes := createKeyBytes keyData
  let currentFileBuffer := fileBuffer
  match readDbfMetadata currentFileBuffer with
  | .error e => .error e
  | .ok (header, fields) =>
    let firstByte := header.firstByte
    let dataBytes := getDbfDataSection currentFileBuffer header.headerLength
      header.numRecords header.recordLength
    let next :=
      if firstByte = 0x06 then
        if isDecrypt then
          ({ processedDataBytes := some (hb_sxDeCrypt dataBytes keyBytes),
             statusMessage := some "Dados descriptografados." },
           setDbfFirstByte currentFileBuffer 0x03)
        else
          ({ processedDataBytes := some (hb_sxEnCrypt dataBytes keyBytes),
             statusMessage := some "Dados criptografados." },
           setDbfFirstByte currentFileBuffer 0x06)
      else (st, currentFileBuffer)
    match next.1.processedDataBytes with
    | none => .error .typeError
    | some data =>
      let finalBuffer := setDbfDataSection next.2 data header.headerLength
      .ok ({ fields := fields, fileBuffer := finalBuffer,
             status := next.1.statusMessage }, next.1)

/-- A 34-byte plain DBF file: `statusByte 0x03`, 1 record, header length
33, record length 1, `0x0D` terminator at offset 32, payload byte `0x41`. -/
def plainBuf34 : List Nat :=
  [3, 0, 0, 0, 1, 0, 0, 0, 33, 0, 1, 0, 0, 0, 0, 0, 0, 0, 0, 0, 0, 0, 0, 0,
   0, 0, 0, 0, 0, 0, 0, 0, 13, 65]

/-- The same file marked SX-encrypted (`statusByte 0x06`). -/
def encBuf34 : List Nat :=
  [6, 0, 0, 0, 1, 0, 0, 0, 33, 0, 1, 0, 0, 0, 0, 0, 0, 0, 0, 0, 0, 0, 0, 0,
   0, 0, 0, 0, 0, 0, 0, 0, 13, 65]

/-- Equality of `Except` values with decidable components is decidable;
needed to evaluate the pipeline's results with `decide`. -/
instance exceptDecEq {ε α : Type} [DecidableEq ε] [DecidableEq α] :
    DecidableEq (Except ε α)
  | .ok x, .ok y =>
    if h : x = y then .isTrue (by rw [h])
    else .isFalse (fun hc => h (by cases hc; rfl))
  | .ok _, .error _ => .isFalse (fun hc => Except.noConfusion hc)
  | .error _, .ok _ => .isFalse (fun hc => Except.noConfusion hc)
  | .error d, .error e =>
    if h : d = e then .isTrue (by rw [h])
    else .isFalse (fun hc => h (by cases hc; rfl))

/-- C4: the claim expects encrypt mode on a plain (`0x03`) file to encrypt
the payload and retag it `0x06`; the code never reaches the cipher when
`firstByte !== 0x06`.  On a fresh module the call then dies with a
`TypeError` (`processedDataBytes` is `undefined`), and on a reused module
it writes stale bytes while the status byte stays `0x03`: here, with a
leftover payload `[0x42]`, the returned buffer still starts with `3` and
its payload byte is the stale `0x42`, which differs from the cipher's
encryption of the actual payload `[0x41]`. -/
theorem claim_C4_encrypt_plain_bug :
    processDbfFile { processedDataBytes := none, statusMessage := none }
        plainBuf34 [5, 6, 5, 6, 5, 6, 5, 6] false = .error .typeError ∧
      processDbfFile
          { processedDataBytes := some [66], statusMessage := some "Dados descriptografados." }
          plainBuf34 [5, 6, 5, 6, 5, 6, 5, 6] false =
        .ok ({ fields := [],
               fileBuffer := [3, 0, 0, 0, 1, 0, 0, 0, 33, 0, 1, 0, 0, 0, 0, 0, 0, 0, 0, 0,
                 0, 0, 0, 0, 0, 0, 0, 0, 0, 0, 0, 0, 13, 66],
               status := some "Dados descriptografados." },
             { processedDataBytes := some [66],
               statusMessage := some "Dados descriptografados." }) ∧
      (66 : Nat) ≠ (hb_sxEnCrypt [65] (createKeyBytes [5, 6, 5, 6, 5, 6, 5, 6])).getD 0 0 := by
  refine ⟨by decide, by decide, by decide⟩

/-- C5: the pipeline's output depends on the module-level
`processedDataBytes` left by earlier calls.  On the same plain buffer, the
same key and the same mode, a fresh module throws while a module with
leftover state returns a buffer, so the two results differ — the code
violates the claimed determinism across calls. -/
theorem claim_C5_state_leak :
    processDbfFile { processedDataBytes := none, statusMessage := none }
        plainBuf34 [5, 6, 5, 6, 5, 6, 5, 6] false ≠
      processDbfFile
        { processedDataBytes := some [66], statusMessage := some "Dados descriptografados." }
        plainBuf34 [5, 6, 5, 6, 5, 6, 5, 6] false := by
  decide

/-- The helper `writeBytes` never changes the length of the buffer. -/
theorem writeBytes_length (data : List Nat) :
    ∀ (buffer : List Nat) (pos : Nat), (writeBytes buffer data pos).length = buffer.length := by
  induction data with
  | nil => intro buffer pos; rfl
  | cons b rest ih =>
    intro buffer pos
    simp only [writeBytes]
    rw [ih]
    exact List.length_set ..

/-- The helper `writeBytes` leaves every position outside `[pos, pos + data.length)`
unchanged. -/
theorem writeBytes_frame (data : List Nat) :
    ∀ (buffer : List Nat) (pos i : Nat), i < pos ∨ pos + data.length ≤ i →
      (writeBytes buffer data pos)[i]? = buffer[i]? := by
  induction data with
  | nil => intro buffer pos i _; rfl
  | cons b rest ih =>
    intro buffer pos i hi
    simp only [writeBytes]
    have hne : pos ≠ i := by
      simp only [List.length_cons] at hi
      omega
    have hout : i < pos + 1 ∨ (pos + 1) + rest.length ≤ i := by
      simp only [List.length_cons] at hi
      omega
    rw [ih _ (pos + 1) i hout, List.getElem?_set_ne hne]

/-- C7: on a valid DBF buffer whose status byte is `0x06`, decrypt mode
returns a buffer of the same length whose byte 0 is `0x03` and whose bytes
outside the payload range `[headerLength, headerLength +
numRecords * recordLength)` all equal the input's.  (The caller's own
buffer is untouched by construction: the source clones it with
`fileBuffer.slice(0)` before any write.) -/
theorem claim_C7_decrypt_frame (st : PipelineState) (buf keyData : List Nat)
    (h : DbfHeader) (fs : List DbfField)
    (hmeta : readDbfMetadata buf = .ok (h, fs))
    (henc : h.firstByte = 6)
    (hhl : 33 ≤ h.headerLength)
    (hfit : h.headerLength + h.numRecords * h.recordLength ≤ buf.length) :
    ∃ out st',
      processDbfFile st buf keyData true =
        .ok ({ fields := fs, fileBuffer := out,
               status := some "Dados descriptografados." }, st') ∧
      out.length = buf.length ∧
      out[0]? = some 3 ∧
      (∀ i, 0 < i → (i < h.headerLength ∨ h.headerLength + h.numRecords * h.recordLength ≤ i) →
        out[i]? = buf[i]?) := by
  have hlen0 : 0 < buf.length := by omega
  simp only [processDbfFile, hmeta, henc, if_true, eq_self_iff_true]
  refine ⟨_, _, rfl, ?_, ?_, ?_⟩
  · unfold setDbfDataSection setDbfFirstByte
    rw [writeBytes_length, List.length_set]
  · unfold setDbfDataSection setDbfFirstByte
    have hdlen : (hb_sxDeCrypt (getDbfDataSection buf h.headerLength h.numRecords
        h.recordLength) (createKeyBytes keyData)).length ≤ h.headerLength +
          (hb_sxDeCrypt (getDbfDataSection buf h.headerLength h.numRecords
            h.recordLength) (createKeyBytes keyData)).length := by omega
    rw [writeBytes_frame _ _ _ 0 (Or.inl (by omega))]
    exact List.getElem?_set_self hlen0
  · intro i hi hout
    unfold setDbfDataSection setDbfFirstByte
    have hdec : ∀ (src key : List Nat), (hb_sxDeCrypt src key).length = src.length := by
      intro src key
      unfold hb_sxDeCrypt
      generalize (hb_sxInitSeed key).1 = s
      generalize (hb_sxInitSeed key).2 = k
      generalize (0 : Nat) = idx
      induction src generalizing s k idx with
      | nil => rfl
      | cons c rest ih => simp only [decLoop, List.length_cons, ih]
    have hdlen : (hb_sxDeCrypt (getDbfDataSection buf h.headerLength h.numRecords
        h.recordLength) (createKeyBytes keyData)).length ≤
          h.numRecords * h.recordLength := by
      rw [hdec]
      unfold getDbfDataSection
      rw [List.length_take]
      omega
    rw [writeBytes_frame _ _ _ i (by omega), List.getElem?_set_ne (by omega)]

theorem claim_C7_decrypt_frame_witness :
    (readDbfMetadata encBuf34 =
      .ok ({ firstByte := 6, numRecords := 1, headerLength := 33, recordLength := 1 }, [])) ∧
    ∃ out st',
      processDbfFile { processedDataBytes := none, statusMessage := none }
          encBuf34 [5, 6, 5, 6, 5, 6, 5, 6] true =
        .ok ({ fields := [], fileBuffer := out,
               status := some "Dados descriptografados." }, st') ∧
      out.length = encBuf34.length ∧
      out[0]? = some 3 ∧
      (∀ i, 0 < i → (i < 33 ∨ 33 + 1 * 1 ≤ i) → out[i]? = encBuf34[i]?) :=
  ⟨by decide,
    claim_C7_decrypt_frame { processedDataBytes := none, statusMessage := none }
      encBuf34 [5, 6, 5, 6, 5, 6, 5, 6]
      { firstByte := 6, numRecords := 1, headerLength := 33, recordLength := 1 } []
      (by decide) rfl (by decide) (by decide)⟩

/-! ## dbfHarbour.ts -/

/-- The `DBFField` interface of dbfHarbour.ts (distinct from dbfHandler.ts's
`DbfField`): the `offset` starts at 0 and accumulates the previous field
lengths. -/
structure DBFField where
  name : List Nat
  type : Nat
  length : Nat
  decimalPlaces : Nat
  offset : Nat
deriving DecidableEq, Repr

/-- The `DBFHeader` interface of dbfHarbour.ts.  `lastUpdate` keeps the
three `Date` constructor arguments (year, month index, day); the `Date`
normalization itself is irrelevant to every claim and is not modelled. -/
structure DBFHeader where
  version : Nat
  lastUpdate : Nat × Int × Nat
  recordCount : Nat
  headerSize : Nat
  recordSize : Nat
  fields : List DBFField
  hasCodePage : Bool
  codePage : Option Nat
deriving DecidableEq, Repr

/-- Node `Buffer.readUInt8(offset)`: throws a `RangeError` out of bounds. -/
def readUInt8 (buffer : List Nat) (offset : Nat) : Except JsError Nat :=
  if offset + 1 ≤ buffer.length then .ok (buffer.getD offset 0) else .error .rangeError

/-- One character of a field name in `PROCESSA_CAMPOS_DBF`: plain indexing
(`buffer[position + i]`) yields `undefined` out of bounds, which passes the
`charCode !== 0` test and turns into the NUL character under
`String.fromCharCode`. -/
def processaFieldNameChar (buffer : List Nat) (idx : Nat) : List Nat :=
  match buffer[idx]? with
  | some c => if c ≠ 0 then [c] else []
  | none => [0]

/-- The 11-byte field name of `PROCESSA_CAMPOS_DBF`, trimmed like
JavaScript `trim`. -/
def processaFieldName (buffer : List Nat) (position : Nat) : List Nat :=
  jsTrim (((List.range 11).map (fun i => processaFieldNameChar buffer (position + i))).join)

/-- The `while` loop of `PROCESSA_CAMPOS_DBF`: plain indexing for the
`0x0D` test (`undefined` is not `0x0D`), throwing `readUInt8` for the
length and decimal bytes.  `fuel` only bounds the recursion; `headerSize`
always suffices since the position grows by 32 each step. -/
def processaCamposLoop (buffer : List Nat) (headerSize : Nat) :
    Nat → Nat → Nat → Except JsError (List DBFField)
  | _, _, 0 => .ok []
  | position, offset, fuel + 1 =>
    if position < headerSize - 1 then
      if buffer[position]? = some 0x0D then .ok []
      else
        match readUInt8 buffer (position + 16) with
        | .error e => .error e
        | .ok len =>
          match readUInt8 buffer (position + 17) with
          | .error e => .error e
          | .ok dec =>
            match processaCamposLoop buffer headerSize (position + 32) (offset + len) fuel with
            | .error e => .error e
            | .ok rest =>
              .ok ({ name := processaFieldName buffer position,
                     type := buffer.getD (position + 11) 0,
                     length := len, decimalPlaces := dec, offset := offset } :: rest)
    else .ok []

/-- Model of `PROCESSA_CAMPOS_DBF(buffer, headerSize)` from dbfHarbour.ts. -/
def PROCESSA_CAMPOS_DBF (buffer : List Nat) (headerSize : Nat) :
    Except JsError (List DBFField) :=
  processaCamposLoop buffer headerSize 32 0 headerSize

/-- Model of `VERIFICA_CODE_PAGE(buffer)` from dbfHarbour.ts. -/
def VERIFICA_CODE_PAGE (buffer : List Nat) : Bool :=
  decide (30 ≤ buffer.length) && decide (buffer.getD 29 0 ≠ 0)

/-- The `codePageMapping` table of `OBTEM_CODE_PAGE`. -/
def codePageMapping : List (Nat × Nat) :=
  [(0x01, 437), (0x02, 850), (0x03, 1252), (0x04, 10000), (0x08, 865), (0x09, 437),
   (0x0A, 850), (0x0B, 437), (0x0D, 437), (0x0E, 850), (0x0F, 437), (0x10, 850),
   (0x11, 437), (0x12, 850), (0x13, 932), (0x14, 850), (0x15, 437), (0x16, 850),
   (0x17, 865), (0x18, 437), (0x19, 437), (0x1A, 850), (0x1B, 437), (0x1C, 863),
   (0x1D, 850), (0x1F, 852), (0x22, 852), (0x23, 852), (0x24, 860), (0x25, 850),
   (0x26, 866), (0x37, 850), (0x40, 852), (0x4D, 936), (0x4E, 949), (0x4F, 950),
   (0x50, 874), (0x57, 1252), (0x58, 1252), (0x59, 1252), (0x64, 852), (0x65, 866),
   (0x66, 865), (0x67, 861), (0x6A, 737), (0x6B, 857), (0x6C, 863), (0x78, 950),
   (0x79, 949), (0x7A, 936), (0x7B, 932), (0x7C, 874), (0x86, 737), (0x87, 852),
   (0x88, 857), (0xC8, 1250), (0xC9, 1251), (0xCA, 1254), (0xCB, 1253), (0xCC, 1257)]

/-- Model of `OBTEM_CODE_PAGE(buffer)` from dbfHarbour.ts (`mapping[id] || undefined`;
no table entry is 0, so the lookup models the `||`). -/
def OBTEM_CODE_PAGE (buffer : List Nat) : Option Nat :=
  if buffer.length < 30 then none
  else codePageMapping.lookup (buffer.getD 29 0)

/-- The `try` body of `CHECA_HEADER_DBF`.  Once the buffer has at least 32
bytes, the fixed-offset `read*` calls (offsets 0 to 11) cannot throw, so
they are modelled as direct reads; the only throwing reads sit inside
`PROCESSA_CAMPOS_DBF`. -/
def checaHeaderBody (buffer : List Nat) : Except JsError (Option DBFHeader) :=
  if buffer.length < 32 then .ok none
  else
    let version := buffer.getD 0 0
    let b1 := buffer.getD 1 0
    let year := b1 + (if b1 < 80 then 2000 else 1900)
    let month : Int := (buffer.getD 2 0 : Int) - 1
    let day := buffer.getD 3 0
    let recordCount := buffer.getD 4 0 + 256 * buffer.getD 5 0 +
      65536 * buffer.getD 6 0 + 16777216 * buffer.getD 7 0
    let headerSize := buffer.getD 8 0 + 256 * buffer.getD 9 0
    let recordSize := buffer.getD 10 0 + 256 * buffer.getD 11 0
    if headerSize < 32 ∨ recordSize < 1 then .ok none
    else
      match PROCESSA_CAMPOS_DBF buffer headerSize with
      | .error e => .error e
      | .ok fields =>
        .ok (some { version := version, lastUpdate := (year, month, day),
                    recordCount := recordCount, headerSize := headerSize,
                    recordSize := recordSize, fields := fields,
                    hasCodePage := VERIFICA_CODE_PAGE buffer,
                    codePage := if VERIFICA_CODE_PAGE buffer then OBTEM_CODE_PAGE buffer
                      else none })

/-- Model of `CHECA_HEADER_DBF(buffer)` from dbfHarbour.ts: the `catch` turns any
exception into `null`. -/
def CHECA_HEADER_DBF (buffer : List Nat) : Option DBFHeader :=
  match checaHeaderBody buffer with
  | .ok r => r
  | .error _ => none

/-- The decoded value of one record field.  Numbers are modelled as
rationals (`none` models `NaN`), which is exact for every value the claims
touch; `vDate` keeps the three `Date` constructor arguments. -/
inductive DbfValue where
  | vStr : List Nat → DbfValue
  | vNum : Option Rat → DbfValue
  | vBool : Bool → DbfValue
  | vDate : Option Rat → Option Rat → Option Rat → DbfValue
  | vNull : DbfValue
deriving DecidableEq, Repr

/-- JavaScript `toUpperCase` restricted to the ASCII range the record
fields use. -/
def jsToUpper (s : List Nat) : List Nat :=
  s.map (fun c => if 97 ≤ c ∧ c ≤ 122 then c - 32 else c)

/-- Decimal digits of a char-code list. -/
def isDigitCode (c : Nat) : Bool := decide (48 ≤ c) && decide (c ≤ 57)

/-- Value of a list of decimal digit codes. -/
def digitsToNat (ds : List Nat) : Nat := ds.foldl (fun acc d => acc * 10 + (d - 48)) 0

/-- JavaScript `parseInt(s, 10)`: optional sign then leading digits;
`none` models `NaN` (no digits). -/
def jsParseIntCore (sign : Int) (rest : List Nat) : Option Int :=
  let ds := rest.takeWhile isDigitCode
  if ds.isEmpty then none else some (sign * (digitsToNat ds : Int))

def jsParseInt (s : List Nat) : Option Int :=
  match s.dropWhile jsWhitespace with
  | 43 :: rest => jsParseIntCore 1 rest
  | 45 :: rest => jsParseIntCore (-1) rest
  | rest => jsParseIntCore 1 rest

/-- JavaScript `parseFloat`: optional sign, digits, optional fraction,
optional exponent; trailing garbage is ignored and `none` models `NaN`.
(The `Infinity` literal never occurs in fixed-width numeric fields and is
not modelled.) -/
def jsParseFloat (s : List Nat) : Option Rat :=
  let t := s.dropWhile jsWhitespace
  let signAndRest : Int × List Nat :=
    match t with
    | 43 :: rest => (1, rest)
    | 45 :: rest => (-1, rest)
    | rest => (1, rest)
  let intDigits := signAndRest.2.takeWhile isDigitCode
  let afterInt := signAndRest.2.dropWhile isDigitCode
  let fracDigits :=
    match afterInt with
    | 46 :: rest => rest.takeWhile isDigitCode
    | _ => []
  let afterFrac :=
    match afterInt with
    | 46 :: rest => rest.dropWhile isDigitCode
    | _ => afterInt
  if intDigits.isEmpty ∧ fracDigits.isEmpty then none
  else
    let mantissa : Rat := ((signAndRest.1 * (digitsToNat (intDigits ++ fracDigits) : Int)) : Rat) /
      ((10 : Rat) ^ fracDigits.length)
    let expo : Int :=
      match afterFrac with
      | 101 :: rest => (jsParseInt rest).getD 0
      | 69 :: rest => (jsParseInt rest).getD 0
      | _ => 0
    some (mantissa * (10 : Rat) ^ expo)

/-- The `switch (field.type)` of `LER_REGISTRO_DBF`, converting the raw
field bytes (`Buffer.toString('utf8')` is modelled at the byte level,
exact for ASCII data) to a typed value. -/
def convertFieldValue (field : DBFField) (fieldData : List Nat) : DbfValue :=
  if field.type = 67 then .vStr (jsTrim fieldData)
  else if field.type = 78 then
    let numStr := jsTrim fieldData
    if numStr = [] then .vNull
    else if 0 < field.decimalPlaces then .vNum (jsParseFloat numStr)
    else .vNum ((jsParseInt numStr).map (fun n => (n : Rat)))
  else if field.type = 70 then
    let floatStr := jsTrim fieldData
    if floatStr = [] then .vNull else .vNum (jsParseFloat floatStr)
  else if field.type = 76 then
    let logicalChar := jsToUpper (jsTrim fieldData)
    if logicalChar = [84] ∨ logicalChar = [89] then .vBool true
    else if logicalChar = [70] ∨ logicalChar = [78] then .vBool false
    else .vNull
  else if field.type = 68 then
    let dateStr := jsTrim fieldData
    if dateStr.length = 8 then
      .vDate ((jsParseInt (dateStr.take 4)).map (fun n => (n : Rat)))
        (((jsParseInt ((dateStr.drop 4).take 2)).map (fun n => (n : Rat))).map (fun n => n - 1))
        ((jsParseInt ((dateStr.drop 6).take 2)).map (fun n => (n : Rat)))
    else .vNull
  else if field.type = 77 then .vStr (jsTrim fieldData)
  else .vStr (jsTrim fieldData)

/-- Assignment `record[key] = value` on a JavaScript object: overwrites in
place when the key exists, appends otherwise. -/
def objSet (m : List (List Nat × DbfValue)) (k : List Nat) (v : DbfValue) :
    List (List Nat × DbfValue) :=
  match m with
  | [] => [(k, v)]
  | (k2, v2) :: rest => if k2 = k then (k, v) :: rest else (k2, v2) :: objSet rest k v

/-- Model of `LER_REGISTRO_DBF(buffer, header, recordIndex)` from dbfHarbour.ts:
`null` (`none`) for an index outside `[0, recordCount)` AND for a record
whose first byte is `0x2A`; otherwise the object built from all fields.
(`buffer.slice` clamps, plain indexing yields `undefined` out of bounds,
so the body itself cannot throw.) -/
def LER_REGISTRO_DBF (buffer : List Nat) (header : DBFHeader) (recordIndex : Int) :
    Option (List (List Nat × DbfValue)) :=
  if recordIndex < 0 ∨ (header.recordCount : Int) ≤ recordIndex then none
  else
    if buffer[header.headerSize + recordIndex.toNat * header.recordSize]? = some 0x2A then none
    else
      some (header.fields.foldl
        (fun record field =>
          let fieldOffset := header.headerSize + recordIndex.toNat * header.recordSize +
            1 + field.offset
          let fieldData := (buffer.drop fieldOffset).take field.length
          objSet record field.name (convertFieldValue field fieldData))
        [])

/-- The `for` loop of `LER_TODOS_REGISTROS_DBF`: push every truthy record
(`{}` is truthy, `null` is falsy). -/
def lerTodosLoop (buffer : List Nat) (header : DBFHeader) :
    Nat → Nat → List (List (List Nat × DbfValue))
  | _, 0 => []
  | i, fuel + 1 =>
    match LER_REGISTRO_DBF buffer header (i : Int) with
    | some record => record :: lerTodosLoop buffer header (i + 1) fuel
    | none => lerTodosLoop buffer header (i + 1) fuel

/-- Model of `LER_TODOS_REGISTROS_DBF(buffer)` from dbfHarbour.ts.  The loop body
cannot throw, so the `try`/`catch` reduces to the header check. -/
def LER_TODOS_REGISTROS_DBF (buffer : List Nat) :
    Option (List (List (List Nat × DbfValue))) :=
  match CHECA_HEADER_DBF buffer with
  | none => none
  | some header => some (lerTodosLoop buffer header 0 header.recordCount)

/-! ### Header checking and record reading: claims C6, C9, C10 -/

/-- A 32-byte buffer that violates several of C6's listed conditions
(`headerLength = 32 < 33`, no `0x0D` terminator anywhere, field-length sum
`1 + 0` different from `recordLength = 5`) but still parses. -/
def c6buf : List Nat :=
  [3, 1, 1, 1, 1, 0, 0, 0, 32, 0, 5, 0] ++ List.replicate 20 0

/-- C6 counterexample: `c6buf` violates the claim's failure conditions
(headerLength below 33, no `0x0D` terminator within `headerLength - 1`,
`1 + Σ field.length ≠ recordLength`), yet `CHECA_HEADER_DBF` produces a
header rather than failing, so the claimed "exactly when" is false. -/
theorem claim_C6_counterexample :
    CHECA_HEADER_DBF c6buf =
      some { version := 3, lastUpdate := (2001, 0, 1), recordCount := 1,
             headerSize := 32, recordSize := 5, fields := [],
             hasCodePage := false, codePage := none } ∧
    c6buf.getD 8 0 + 256 * c6buf.getD 9 0 = 32 ∧
    (∀ p, p < 32 → c6buf.getD p 0 ≠ 0x0D) ∧
    c6buf.getD 10 0 + 256 * c6buf.getD 11 0 = 5 := by
  refine ⟨by decide, by decide, by decide, by decide⟩

/-- C6 amended: header parsing returns `null` when the buffer is shorter
than 32 bytes, or when the little-endian `headerLength` at offset 8 is
below 32, or when the little-endian `recordLength` at offset 10 is zero;
the claim's remaining conditions are not checked by the code. -/
theorem claim_C6_header_failure (buffer : List Nat) :
    (buffer.length < 32 → CHECA_HEADER_DBF buffer = none) ∧
    (32 ≤ buffer.length →
      (buffer.getD 8 0 + 256 * buffer.getD 9 0 < 32 ∨
        buffer.getD 10 0 + 256 * buffer.getD 11 0 = 0) →
      CHECA_HEADER_DBF buffer = none) := by
  constructor
  · intro hlen
    simp only [CHECA_HEADER_DBF, checaHeaderBody, if_pos hlen]
  · intro hlen hguard
    have h1 : ¬ buffer.length < 32 := by omega
    have hg2 : buffer.getD 8 0 + 256 * buffer.getD 9 0 < 32 ∨
        buffer.getD 10 0 + 256 * buffer.getD 11 0 < 1 := by omega
    simp only [CHECA_HEADER_DBF, checaHeaderBody]
    rw [if_neg h1, if_pos hg2]

theorem claim_C6_header_failure_witness :
    CHECA_HEADER_DBF [3, 0, 0] = none ∧
      CHECA_HEADER_DBF
        [3, 1, 1, 1, 1, 0, 0, 0, 10, 0, 5, 0, 0, 0, 0, 0, 0, 0, 0, 0, 0, 0,
         0, 0, 0, 0, 0, 0, 0, 0, 0, 0] = none :=
  ⟨(claim_C6_header_failure [3, 0, 0]).1 (by decide),
    (claim_C6_header_failure
      [3, 1, 1, 1, 1, 0, 0, 0, 10, 0, 5, 0, 0, 0, 0, 0, 0, 0, 0, 0, 0, 0,
       0, 0, 0, 0, 0, 0, 0, 0, 0, 0]).2 (by decide) (by decide)⟩

/-- A 36-byte DBF with `headerSize 32`, two 2-byte records — the first
live (`0x20`), the second deleted (`0x2A`) — and no field descriptors. -/
def dbfDemoBuf : List Nat :=
  [3, 1, 1, 1, 2, 0, 0, 0, 32, 0, 2, 0] ++ List.replicate 20 0 ++ [32, 65, 42, 66]

/-- The header `CHECA_HEADER_DBF` produces for `dbfDemoBuf`. -/
def dbfDemoHeader : DBFHeader :=
  { version := 3, lastUpdate := (2001, 0, 1), recordCount := 2,
    headerSize := 32, recordSize := 2, fields := [],
    hasCodePage := false, codePage := none }

/-- A record with first byte `0x2A` yields `null`. -/
theorem ler_registro_eq_none_of_deleted (buffer : List Nat) (header : DBFHeader)
    (i : Int) (h0 : 0 ≤ i) (hlt : i < (header.recordCount : Int))
    (hdel : buffer[header.headerSize + i.toNat * header.recordSize]? = some 0x2A) :
    LER_REGISTRO_DBF buffer header i = none := by
  have hguard : ¬ (i < 0 ∨ (header.recordCount : Int) ≤ i) := by omega
  simp only [LER_REGISTRO_DBF]
  rw [if_neg hguard, if_pos hdel]

/-- An index at or past `recordCount` yields `null`. -/
theorem ler_registro_eq_none_of_ge (buffer : List Nat) (header : DBFHeader)
    (i : Int) (hge : (header.recordCount : Int) ≤ i) :
    LER_REGISTRO_DBF buffer header i = none := by
  simp only [LER_REGISTRO_DBF]
  rw [if_pos (Or.inr hge)]

/-- An in-range record whose first byte is not `0x2A` yields an object. -/
theorem ler_registro_isSome_of_live (buffer : List Nat) (header : DBFHeader)
    (i : Int) (h0 : 0 ≤ i) (hlt : i < (header.recordCount : Int))
    (hndel : ¬ buffer[header.headerSize + i.toNat * header.recordSize]? = some 0x2A) :
    (LER_REGISTRO_DBF buffer header i).isSome = true := by
  have hguard : ¬ (i < 0 ∨ (header.recordCount : Int) ≤ i) := by omega
  simp only [LER_REGISTRO_DBF]
  rw [if_neg hguard, if_neg hndel]
  rfl

/-- C9 counterexample: the "deleted" result of `LER_REGISTRO_DBF` is
`null`, exactly the value it returns for an out-of-range index, so the
deleted sentinel is NOT distinguishable from the decoder's other failure
results.  (`dbfDemoBuf`'s record 1 is deleted, index 2 is out of range.) -/
theorem claim_C9_counterexample :
    dbfDemoBuf.getD (32 + 1 * 2) 0 = 0x2A ∧
    LER_REGISTRO_DBF dbfDemoBuf dbfDemoHeader 1 = none ∧
    LER_REGISTRO_DBF dbfDemoBuf dbfDemoHeader 2 = none ∧
    LER_REGISTRO_DBF dbfDemoBuf dbfDemoHeader 1 =
      LER_REGISTRO_DBF dbfDemoBuf dbfDemoHeader 2 := by
  refine ⟨by decide, by decide, by decide, by decide⟩

/-- C9 amended: a record whose first byte is `0x2A` decodes to `null`,
which is distinguishable from a present record with all-blank fields (a
non-null object) but coincides with the out-of-range failure result,
which is also `null`. -/
theorem claim_C9_deleted_sentinel (buffer : List Nat) (header : DBFHeader) (i : Int) :
    (0 ≤ i → i < (header.recordCount : Int) →
      buffer[header.headerSize + i.toNat * header.recordSize]? = some 0x2A →
      LER_REGISTRO_DBF buffer header i = none) ∧
    ((header.recordCount : Int) ≤ i → LER_REGISTRO_DBF buffer header i = none) ∧
    (0 ≤ i → i < (header.recordCount : Int) →
      ¬ buffer[header.headerSize + i.toNat * header.recordSize]? = some 0x2A →
      (LER_REGISTRO_DBF buffer header i).isSome = true) :=
  ⟨fun h0 hlt hdel => ler_registro_eq_none_of_deleted buffer header i h0 hlt hdel,
   fun hge => ler_registro_eq_none_of_ge buffer header i hge,
   fun h0 hlt hndel => ler_registro_isSome_of_live buffer header i h0 hlt hndel⟩

theorem claim_C9_deleted_sentinel_witness :
    LER_REGISTRO_DBF dbfDemoBuf dbfDemoHeader 1 = none ∧
    LER_REGISTRO_DBF dbfDemoBuf dbfDemoHeader 3 = none ∧
    (LER_REGISTRO_DBF dbfDemoBuf dbfDemoHeader 0).isSome = true :=
  ⟨(claim_C9_deleted_sentinel dbfDemoBuf dbfDemoHeader 1).1 (by decide) (by decide) (by decide),
   (claim_C9_deleted_sentinel dbfDemoBuf dbfDemoHeader 3).2.1 (by decide),
   (claim_C9_deleted_sentinel dbfDemoBuf dbfDemoHeader 0).2.2 (by decide) (by decide)
     (by decide)⟩

/-- The record loop returns exactly one entry per live (non-`0x2A`) record
among the indices it visits. -/
theorem lerTodosLoop_length (buffer : List Nat) (header : DBFHeader) :
    ∀ fuel i, i + fuel ≤ header.recordCount →
      (lerTodosLoop buffer header i fuel).length =
        ((List.range' i fuel).filter
          (fun j => decide
            (¬ buffer[header.headerSize + j * header.recordSize]? = some 0x2A))).length := by
  intro fuel
  induction fuel with
  | zero => intro i _; rfl
  | succ n ih =>
    intro i hi
    rw [List.range'_succ]
    simp only [lerTodosLoop, List.filter_cons]
    have h0 : (0 : Int) ≤ (i : Int) := Int.natCast_nonneg i
    have hlt : (i : Int) < (header.recordCount : Int) := by
      have : i < header.recordCount := by omega
      exact_mod_cast this
    have htoNat : ((i : Int)).toNat = i := Int.toNat_natCast i
    by_cases hdel : buffer[header.headerSize + i * header.recordSize]? = some 0x2A
    · have hnone : LER_REGISTRO_DBF buffer header (i : Int) = none := by
        refine ler_registro_eq_none_of_deleted buffer header (i : Int) h0 hlt ?_
        rw [htoNat]
        exact hdel
      rw [hnone]
      simp only [hdel, not_true_eq_false, decide_False, Bool.false_eq_true, if_neg]
      exact ih (i + 1) (by omega)
    · have hsome : (LER_REGISTRO_DBF buffer header (i : Int)).isSome = true := by
        refine ler_registro_isSome_of_live buffer header (i : Int) h0 hlt ?_
        rw [htoNat]
        exact hdel
      obtain ⟨r, hr⟩ := Option.isSome_iff_exists.mp hsome
      rw [hr]
      simp only [hdel, not_false_eq_true, decide_True, if_pos, List.length_cons]
      rw [ih (i + 1) (by omega)]
  

/-- C10: decoding all records returns only the non-deleted records — every
`0x2A`-marked record is silently omitted, the array length equals the
number of live records (and hence can be strictly below `recordCount`),
and there is no placeholder at the deleted positions. -/
theorem claim_C10_skip_deleted (buffer : List Nat) (header : DBFHeader)
    (hh : CHECA_HEADER_DBF buffer = some header) :
    ∃ recs, LER_TODOS_REGISTROS_DBF buffer = some recs ∧
      recs.length = ((List.range header.recordCount).filter
        (fun j => decide
          (¬ buffer[header.headerSize + j * header.recordSize]? = some 0x2A))).length ∧
      recs.length ≤ header.recordCount := by
  refine ⟨lerTodosLoop buffer header 0 header.recordCount, ?_, ?_, ?_⟩
  · simp only [LER_TODOS_REGISTROS_DBF, hh]
  · rw [List.range_eq_range']
    exact lerTodosLoop_length buffer header header.recordCount 0 (by omega)
  · have h := lerTodosLoop_length buffer header header.recordCount 0 (by omega)
    rw [h]
    calc ((List.range' 0 header.recordCount).filter _).length
        ≤ (List.range' 0 header.recordCount).length := List.length_filter_le _ _
      _ = header.recordCount := List.length_range' ..

theorem claim_C10_skip_deleted_witness :
    CHECA_HEADER_DBF dbfDemoBuf = some dbfDemoHeader ∧
      LER_TODOS_REGISTROS_DBF dbfDemoBuf = some [[]] ∧
      (∃ recs, LER_TODOS_REGISTROS_DBF dbfDemoBuf = some recs ∧
        recs.length = ((List.range dbfDemoHeader.recordCount).filter
          (fun j => decide
            (¬ dbfDemoBuf[dbfDemoHeader.headerSize +
                j * dbfDemoHeader.recordSize]? = some 0x2A))).length ∧
        recs.length ≤ dbfDemoHeader.recordCount) :=
  ⟨by decide, by decide, claim_C10_skip_deleted dbfDemoBuf dbfDemoHeader (by decide)⟩
